import Mathlib

/-!
Verification development for chconv (src/main.cpp), a filter-aware
directory-walking file encoding converter.

Shallow embedding conventions:
* An absolute filesystem path is a `List String` of its components; the
  C++ `path.string()` rendering prepends "/" and joins with "/".
* The external black boxes (std::regex matching, uchardet, libmagic,
  iconv) are parameters: a `Services` record of pure functions.  All
  definitions below are translated from the code paths of main.cpp;
  line references point into src/main.cpp.
* Filesystem contents are a static tree of `fs_entry` plus a
  `FileState` per file (MIME probe answer, readability, bytes, whether
  a byte-for-byte copy would succeed).
-/

set_option maxHeartbeats 1000000

/-- Possible per-task statuses, main.cpp:101-105. -/
inductive processing_status where
  | skip
  | success
  | error
deriving DecidableEq, Repr

/-- The comparison `== processing_status::error` used at main.cpp:605 and 611. -/
def is_error (s : processing_status) : Bool :=
  match s with
  | .error => true
  | _ => false

/-- External collaborators of the core, modelled as pure functions:
`rmatch pat s` is std::regex_match of `s` against the compiled pattern
`pat` (full-match semantics); `detect` is uchardet over a byte buffer;
`iconv_open_ok` tells whether `iconv_open(to, from)` succeeds;
`iconv_convert from to bytes capacity` returns the produced bytes or
`none` when the single `iconv` call fails (main.cpp:477-482). -/
structure Services where
  rmatch : String → String → Bool
  detect : List Nat → String
  iconv_open_ok : String → String → Bool
  iconv_convert : String → String → List Nat → Nat → Option (List Nat)

/-- Per-file facts the program observes through the OS and libmagic:
the MIME label (`none` when the probe fails and magic_file returns
null, main.cpp:388-390), whether opening/reading the file succeeds,
the file bytes, and whether fs::copy_file would succeed. -/
structure FileState where
  mime : Option String
  readable : Bool
  content : List Nat
  copy_ok : Bool

/-- A directory subtree as the enumerator sees it. -/
inductive fs_entry where
  | file (name : String)
  | dir (name : String) (children : List fs_entry)

/-- A FileTask as built at main.cpp:573: absolute input path and
mirrored absolute output path. -/
structure FileTask where
  input : List String
  output : List String
deriving DecidableEq, Repr

/-- The global options struct, main.cpp:225-286 (after init has made
input/output absolute, main.cpp:630-631). -/
structure options where
  verbose : Bool
  dry_run : Bool
  recursive : Bool
  input : List String
  output : List String
  suffix : Option (String × List String)
  «to» : String
  exclude : Option (String × List String)

/-- Bool test that `base` is a leading run of components of `p`. -/
def pathStartsWith : List String → List String → Bool
  | [], _ => true
  | _ :: _, [] => false
  | b :: bs, x :: xs => b == x && pathStartsWith bs xs

/-- Rendering of an absolute path, as `path.string()` produces it. -/
def path_string (p : List String) : String :=
  "/" ++ String.intercalate "/" p

/-- The `path.filename()` component (last component of the path). -/
def path_filename (p : List String) : String :=
  (p.getLast?).getD ""

/-- Suffix of a filename's character list starting at its last dot. -/
def after_last_dot : List Char → Option (List Char)
  | [] => none
  | c :: cs =>
    match after_last_dot cs with
    | some r => some r
    | none => if c = '.' then some (c :: cs) else none

/-- The `path.extension()` of a filename, following the C++17 rules:
empty for "." and "..", a leading dot is ignored, otherwise the
substring from the rightmost dot to the end. -/
def path_extension (filename : String) : String :=
  if filename = "." ∨ filename = ".." then ""
  else
    match filename.toList with
    | [] => ""
    | _ :: cs =>
      match after_last_dot cs with
      | some r => String.mk r
      | none => ""

/-- Components of `fs::relative(p, base)`; the enumerator and the
filter only relativise paths lying under the base, so only the
prefix case is exercised. -/
def rel_segments (base p : List String) : List String :=
  if pathStartsWith base p then p.drop base.length else []

/-- should_exclude, main.cpp:288-351, for the compiled patterns held in
`exclude` (an invalid pattern never reaches this point: options::init
exits first, see options_init below, so the catch fallbacks at
main.cpp:320-343 are unreachable).  A path is excluded when some
pattern regex-matches its full path string, its filename, its
extension, or one component of the path relative to the scan root. -/
def should_exclude (rm : String → String → Bool)
    (exclude : Option (String × List String))
    (scan_root path : List String) : Bool :=
  match exclude with
  | none => false
  | some (_, regex_patterns) =>
    let path_str := path_string path
    let filename := path_filename path
    let ext := path_extension filename
    let relative_path := rel_segments scan_root path
    regex_patterns.any fun pat =>
      rm pat path_str || rm pat filename || rm pat ext ||
        relative_path.any fun part => rm pat part

/-- Spec-side rendering of the claim for should_exclude: identical to
the code except that the first target is the path RELATIVE to the scan
root (the spec's words), not the full path string the code passes. -/
def should_exclude_claim (rm : String → String → Bool)
    (exclude : Option (String × List String))
    (scan_root path : List String) : Bool :=
  match exclude with
  | none => false
  | some (_, regex_patterns) =>
    let rel_str := String.intercalate "/" (rel_segments scan_root path)
    let filename := path_filename path
    let ext := path_extension filename
    let relative_path := rel_segments scan_root path
    regex_patterns.any fun pat =>
      rm pat rel_str || rm pat filename || rm pat ext ||
        relative_path.any fun part => rm pat part

/-- should_include_suffix, main.cpp:353-382: with no suffix patterns
every file is included; with patterns, a file with an empty extension
is excluded, otherwise some pattern must regex-match the extension. -/
def should_include_suffix (rm : String → String → Bool)
    (suffix : Option (String × List String))
    (filepath : List String) : Bool :=
  match suffix with
  | none => true
  | some (_, regex_patterns) =>
    let ext := path_extension (path_filename filepath)
    if ext = "" then false
    else regex_patterns.any fun pat => rm pat ext

/-- Full match of a regular expression that contains no metacharacters
(such a pattern full-matches exactly its own literal text); used to
instantiate the abstract `rmatch` at concrete inputs. -/
def literal_full_match (pat s : String) : Bool := pat == s

/-- The getline loop of split_string, main.cpp:200-204, over the
character list: `acc` holds the current token's characters reversed. -/
def split_string_aux (delimiter : Char) : List Char → List Char → List String
  | [], acc => [String.mk acc.reverse]
  | c :: cs, acc =>
    if c = delimiter then String.mk acc.reverse :: split_string_aux delimiter cs []
    else split_string_aux delimiter cs (c :: acc)

/-- split_string, main.cpp:194-207: split on the delimiter, dropping
empty tokens. -/
def split_string (str : String) (delimiter : Char) : List String :=
  (split_string_aux delimiter str.toList []).filter (fun t => t ≠ "")

/-- parse_regex_pairs, main.cpp:209-223: compile each ';'-separated
pattern; `compiles` is the black box telling whether the std::regex
constructor succeeds on a pattern.  `none` models the `false` return
taken when std::regex_error is thrown; on success the pair keeps the
raw string and the pattern list. -/
def parse_regex_pairs (compiles : String → Bool) (pattern : String) :
    Option (String × List String) :=
  let pattern_strings := split_string pattern ';'
  if pattern_strings.all compiles then some (pattern, pattern_strings)
  else none

/-- The treatment of one optional pattern argument inside options::init,
main.cpp:270-279: absent means no patterns; present but failing to
parse means `std::exit(1)`, modelled as `Except.error 1`. -/
def parse_optional_patterns (compiles : String → Bool) (arg : Option String) :
    Except Nat (Option (String × List String)) :=
  match arg with
  | none => Except.ok none
  | some s =>
    match parse_regex_pairs compiles s with
    | some pr => Except.ok (some pr)
    | none => Except.error 1

/-- options::init, main.cpp:236-282, restricted to the core-relevant
outcome: either the populated options value, or the process exit code
produced by `std::exit(1)` when a suffix or exclude pattern fails to
compile as a regular expression. -/
def options_init (compiles : String → Bool)
    (verbose recursive dry_run : Bool) (input output : List String)
    (suffix_arg exclude_arg : Option String) (to_arg : String) :
    Except Nat options := do
  let suffix ← parse_optional_patterns compiles suffix_arg
  let exclude ← parse_optional_patterns compiles exclude_arg
  Except.ok ⟨verbose, dry_run, recursive, input, output, suffix, to_arg, exclude⟩

/-- Bool test that `needle` is a leading run of `hay`. -/
def chars_begin_with : List Char → List Char → Bool
  | [], _ => true
  | _ :: _, [] => false
  | n :: ns, h :: hs => n == h && chars_begin_with ns hs

/-- Bool test that `needle` occurs contiguously inside `hay`
(std::string::find != npos). -/
def contains_chars (needle : List Char) : List Char → Bool
  | [] => chars_begin_with needle []
  | c :: cs => chars_begin_with needle (c :: cs) || contains_chars needle cs

/-- is_text_file, main.cpp:384-392: `none` when the MIME probe fails
(the function throws), otherwise whether the MIME label contains the
substring "text". -/
def is_text_file (mime : Option String) : Option Bool :=
  match mime with
  | none => none
  | some mime_type => some (contains_chars "text".toList mime_type.toList)

/-- detect_encoding, main.cpp:394-425, as (label, detector invocations):
`(none, _)` models the thrown runtime_error (file unreadable, or the
detector ran and returned the empty charset = unrecognized); a
zero-length file yields the "empty file" sentinel without touching the
detector; otherwise uchardet runs once and its label is returned. -/
def detect_encoding (det : List Nat → String) (fst : FileState) :
    Option String × Nat :=
  if fst.readable = false then (none, 0)
  else if fst.content.length = 0 then (some "empty file", 0)
  else
    let encoding := det fst.content
    if encoding = "" then (none, 1) else (some encoding, 1)

/-- Result of convert_encoding: whether it returned true, the bytes
present at the output path afterwards (`none` when nothing was
written), and how many times the iconv transcoding primitive ran. -/
structure ConvResult where
  ok : Bool
  written : Option (List Nat)
  iconv_calls : Nat
deriving DecidableEq, Repr

/-- convert_encoding, main.cpp:427-494.  Fast path (main.cpp:434-444):
identical source and target charsets copy the file byte-for-byte
(no-op when source and destination are the same file), never touching
iconv.  General path: read the input, iconv_open, allocate a 2x output
buffer, call iconv exactly once, and write the produced bytes.  The
`written` field is the final content of the output file (for the
same-file fast path that is the input bytes, already in place). -/
def convert_encoding (sv : Services) (fst : FileState)
    (input_filename : List String) (from_encoding : String)
    (output_filename : List String) (to_encoding : String) : ConvResult :=
  if from_encoding = to_encoding then
    if input_filename ≠ output_filename then
      if fst.copy_ok then ⟨true, some fst.content, 0⟩
      else ⟨false, none, 0⟩
    else ⟨true, some fst.content, 0⟩
  else if fst.readable = false then ⟨false, none, 0⟩
  else if sv.iconv_open_ok from_encoding to_encoding = false then ⟨false, none, 0⟩
  else
    match sv.iconv_convert from_encoding to_encoding fst.content
        (2 * fst.content.length) with
    | none => ⟨false, none, 1⟩
    | some out_bytes => ⟨true, some out_bytes, 1⟩

/-- Observable outcome of process_file on one task: the returned
status, the increment applied to the global g_processed_files counter,
how many times the charset detector and the iconv primitive ran, and
the bytes written at the output path. -/
structure FileOutcome where
  status : processing_status
  counter_inc : Nat
  detector_calls : Nat
  iconv_calls : Nat
  written : Option (List Nat)
deriving DecidableEq, Repr

/-- process_file, main.cpp:496-538.  Note the suffix re-check at
main.cpp:502 passes `g.input` (the configured input root), not the
task's own input_path; `fst` is the FileState of `input_path`.  Any
exception from the probes is caught at main.cpp:534 and yields
status error. -/
def process_file (sv : Services) (g : options) (fst : FileState)
    (input_path output_path : List String) : FileOutcome :=
  if should_include_suffix sv.rmatch g.suffix g.input = false then
    ⟨.skip, 0, 0, 0, none⟩
  else
    match is_text_file fst.mime with
    | none => ⟨.error, 0, 0, 0, none⟩
    | some false => ⟨.skip, 0, 0, 0, none⟩
    | some true =>
      match detect_encoding sv.detect fst with
      | (none, dc) => ⟨.error, 0, dc, 0, none⟩
      | (some file_encoding, dc) =>
        if file_encoding = "empty file" then ⟨.skip, 0, dc, 0, none⟩
        else if g.dry_run then ⟨.success, 0, dc, 0, none⟩
        else
          let cr := convert_encoding sv fst input_path file_encoding
              output_path g.to
          if cr.ok then ⟨.success, 1, dc, cr.iconv_calls, cr.written⟩
          else ⟨.error, 0, dc, cr.iconv_calls, cr.written⟩

mutual
/-- Number of nodes of one fs_entry (used for the measure of the
enumerator's shrinking work queue). -/
def entry_size : fs_entry → Nat
  | .file _ => 1
  | .dir _ children => 1 + entries_size children
/-- Number of nodes of a list of entries. -/
def entries_size : List fs_entry → Nat
  | [] => 0
  | e :: es => entry_size e + entries_size es
end

/-- Measure of the BFS work queue: total node count plus queue length. -/
def queue_size (q : List (List String × List fs_entry)) : Nat :=
  (q.map fun p => entries_size p.2).sum + q.length

/-- The subdirectory enqueueing step of process_directory,
main.cpp:555-561: each child directory that is not excluded is pushed
onto input_dirs (an excluded one is skipped, pruning its subtree). -/
def child_dirs (excl : List String → Bool) (d : List String)
    (es : List fs_entry) : List (List String × List fs_entry) :=
  es.filterMap fun e =>
    match e with
    | .dir name children =>
      if excl (d ++ [name]) then none else some (d ++ [name], children)
    | .file _ => none

/-- The task emission step of process_directory, main.cpp:562-574: each
regular-file child that is not excluded becomes a FileTask whose output
path is output_dir / rel_dir / relative_path, where rel_dir is the
current directory relative to the scan root and relative_path is the
entry relative to the current directory (its filename). -/
def child_tasks (excl : List String → Bool) (out_dir scan_root d : List String)
    (es : List fs_entry) : List FileTask :=
  es.filterMap fun e =>
    match e with
    | .file name =>
      if excl (d ++ [name]) then none
      else some ⟨d ++ [name], out_dir ++ rel_segments scan_root d ++ [name]⟩
    | .dir _ _ => none

/-- The index-based loop over the growing input_dirs vector,
main.cpp:552-576, as FIFO processing of a work queue.  Returns the
emitted tasks and the list of directories actually scanned.  The Nat
argument is recursion fuel; every use below passes `queue_size` of the
initial queue, which the queue-measure lemmas prove sufficient, so the
`(0, _ :: _)` arm is never reached. -/
def enumerate_loop (excl : List String → Bool) (out_dir scan_root : List String) :
    Nat → List (List String × List fs_entry) →
    List FileTask × List (List String)
  | _, [] => ([], [])
  | 0, _ :: _ => ([], [])
  | fuel + 1, (d, es) :: rest =>
    let r := enumerate_loop excl out_dir scan_root fuel
        (rest ++ child_dirs excl d es)
    (child_tasks excl out_dir scan_root d es ++ r.1, d :: r.2)

/-- The whole enumeration phase of process_directory for a scan rooted
at scan_root containing `tree`: the queue is seeded with the scan root
(main.cpp:549). -/
def enumerate_tasks (excl : List String → Bool)
    (out_dir scan_root : List String) (tree : List fs_entry) :
    List FileTask × List (List String) :=
  enumerate_loop excl out_dir scan_root
    (queue_size [(scan_root, tree)]) [(scan_root, tree)]

/-- The status aggregation of process_directory, main.cpp:591-616: at or
above the hardware-concurrency threshold, a transform_reduce of the
per-task "not error" booleans under `&&` starting from true; below it, a
serial loop setting has_failed on each error.  The verdict is error iff
has_failed. -/
def aggregate_verdict (hw : Nat) (statusOf : FileTask → processing_status)
    (tasks : List FileTask) : processing_status :=
  let has_failed :=
    if hw ≤ tasks.length then
      !(tasks.foldl (fun acc t => acc && !(is_error (statusOf t))) true)
    else
      tasks.foldl (fun acc t => if is_error (statusOf t) then true else acc) false
  if has_failed then .error else .success

/-- The per-task statuses produced by one run (both coordinator branches
invoke process_file exactly once per enumerated task). -/
def run_statuses (statusOf : FileTask → processing_status)
    (tasks : List FileTask) : List processing_status :=
  tasks.map statusOf

/-- The per-task outcomes of running process_file over a task list, with
`w` giving each input path's FileState. -/
def run_outcomes (sv : Services) (g : options) (w : List String → FileState)
    (tasks : List FileTask) : List FileOutcome :=
  tasks.map fun t => process_file sv g (w t.input) t.input t.output

/-- Final value of the g_processed_files counter (main.cpp:25,532):
the sum of the per-task increments. -/
def total_processed (outs : List FileOutcome) : Nat :=
  (outs.map fun o => o.counter_inc).sum

/-- Number of success statuses in a run. -/
def count_success (sts : List processing_status) : Nat :=
  (sts.filter fun s => s = .success).length

/-- process_directory, main.cpp:540-621: enumerate, then run the
per-file driver over every task and aggregate. -/
def process_directory (sv : Services) (g : options)
    (w : List String → FileState) (hw : Nat) (tree : List fs_entry) :
    processing_status :=
  let tasks := (enumerate_tasks
      (fun p => should_exclude sv.rmatch g.exclude g.input p)
      g.output g.input tree).1
  aggregate_verdict hw
    (fun t => (process_file sv g (w t.input) t.input t.output).status) tasks

/-- Exit code computed by main from a processing status,
main.cpp:640-654: 1 when the status is error, else 0. -/
def main_verdict (st : processing_status) : Nat :=
  if st = .error then 1 else 0

/-- The dispatch in main, main.cpp:638-647: a directory input goes
through process_directory; otherwise process_file is invoked directly
on (g.input, g.output). -/
def chconv_main (sv : Services) (g : options) (is_dir : Bool)
    (w : List String → FileState) (tree : List fs_entry) (hw : Nat) : Nat :=
  if is_dir then main_verdict (process_directory sv g w hw tree)
  else main_verdict (process_file sv g (w g.input) g.input g.output).status

/-- Sample services to instantiate the abstract black boxes at concrete
inputs: literal full-match regexes, a detector always answering GBK,
iconv_open always succeeding, and a transcoder echoing its input. -/
def sample_services : Services :=
  ⟨literal_full_match, fun _ => "GBK", fun _ _ => true,
    fun _ _ content _ => some content⟩

/-- A readable one-byte text file whose byte-for-byte copy succeeds. -/
def text_file_state : FileState := ⟨some "text/plain", true, [65], true⟩

/-- A readable zero-length text file. -/
def empty_file_state : FileState := ⟨some "text/plain", true, [], true⟩

/-! Helper lemmas about paths, the queue measure, and the enumerator. -/

theorem pathStartsWith_iff : ∀ (a b : List String),
    pathStartsWith a b = true ↔ ∃ s, b = a ++ s
  | [], b => by simp [pathStartsWith]
  | _ :: _, [] => by simp [pathStartsWith]
  | x :: xs, y :: ys => by
    simp only [pathStartsWith, Bool.and_eq_true, beq_iff_eq,
      pathStartsWith_iff xs ys, List.cons_append, List.cons.injEq]
    constructor
    · rintro ⟨rfl, s, rfl⟩
      exact ⟨s, rfl, rfl⟩
    · rintro ⟨s, rfl, rfl⟩
      exact ⟨rfl, s, rfl⟩

theorem pathStartsWith_refl (a : List String) : pathStartsWith a a = true :=
  (pathStartsWith_iff a a).mpr ⟨[], by simp⟩

theorem pathStartsWith_append (a s : List String) :
    pathStartsWith a (a ++ s) = true :=
  (pathStartsWith_iff a (a ++ s)).mpr ⟨s, rfl⟩

theorem pathStartsWith_extend (a b c : List String)
    (h : pathStartsWith a b = true) : pathStartsWith a (b ++ c) = true := by
  obtain ⟨s, rfl⟩ := (pathStartsWith_iff a b).mp h
  exact (pathStartsWith_iff a _).mpr ⟨s ++ c, by simp⟩

theorem pathStartsWith_length_le (a b : List String)
    (h : pathStartsWith a b = true) : a.length ≤ b.length := by
  obtain ⟨s, rfl⟩ := (pathStartsWith_iff a b).mp h
  simp

theorem pathStartsWith_snoc (D d : List String) (name : String)
    (h : pathStartsWith D (d ++ [name]) = true) :
    pathStartsWith D d = true ∨ D = d ++ [name] := by
  obtain ⟨s, hs⟩ := (pathStartsWith_iff D (d ++ [name])).mp h
  rcases List.eq_nil_or_concat s with rfl | ⟨s0, a, rfl⟩
  · right
    rw [hs, List.append_nil]
  · left
    have hdrop : d = D ++ s0 := by
      have h2 : d ++ [name] = (D ++ s0) ++ [a] := by
        rw [hs, List.concat_eq_append, List.append_assoc]
      have h3 := congrArg List.dropLast h2
      rwa [List.dropLast_concat, List.dropLast_concat] at h3
    exact hdrop ▸ pathStartsWith_append D s0

theorem pathStartsWith_extra_false (root ds : List String) (hds : ds ≠ []) :
    pathStartsWith (root ++ ds) root = false := by
  cases h : pathStartsWith (root ++ ds) root with
  | false => rfl
  | true =>
    have hlen := pathStartsWith_length_le _ _ h
    rw [List.length_append] at hlen
    have : ds.length = 0 := by omega
    exact absurd (List.eq_nil_of_length_eq_zero this) hds

theorem rel_segments_snoc (root d : List String) (name : String)
    (h : pathStartsWith root d = true) :
    rel_segments root (d ++ [name]) = rel_segments root d ++ [name] := by
  have h2 := pathStartsWith_extend root d [name] h
  rw [rel_segments, rel_segments, if_pos h, if_pos h2,
    List.drop_append_of_le_length (pathStartsWith_length_le _ _ h)]

theorem mem_child_dirs (excl : List String → Bool) (d : List String)
    (es : List fs_entry) (p : List String × List fs_entry)
    (hp : p ∈ child_dirs excl d es) :
    ∃ name children, p = (d ++ [name], children)
      ∧ excl (d ++ [name]) = false := by
  rw [child_dirs, List.mem_filterMap] at hp
  obtain ⟨e, _, he⟩ := hp
  cases e with
  | file name => simp at he
  | dir name children =>
    by_cases hx : excl (d ++ [name]) = true
    · simp [hx] at he
    · rw [Bool.not_eq_true] at hx
      simp only [hx, Bool.false_eq_true, if_false, Option.some.injEq] at he
      exact ⟨name, children, he.symm, hx⟩

theorem mem_child_tasks (excl : List String → Bool)
    (out_dir scan_root d : List String) (es : List fs_entry) (t : FileTask)
    (ht : t ∈ child_tasks excl out_dir scan_root d es) :
    ∃ name, t = ⟨d ++ [name], out_dir ++ rel_segments scan_root d ++ [name]⟩
      ∧ excl (d ++ [name]) = false := by
  rw [child_tasks, List.mem_filterMap] at ht
  obtain ⟨e, _, he⟩ := ht
  cases e with
  | dir name children => simp at he
  | file name =>
    by_cases hx : excl (d ++ [name]) = true
    · simp [hx] at he
    · rw [Bool.not_eq_true] at hx
      simp only [hx, Bool.false_eq_true, if_false, Option.some.injEq] at he
      exact ⟨name, he.symm, hx⟩

theorem child_dirs_size (excl : List String → Bool) (d : List String) :
    ∀ es : List fs_entry,
      ((child_dirs excl d es).map fun p => entries_size p.2).sum
          + (child_dirs excl d es).length ≤ entries_size es
  | [] => by simp [child_dirs, entries_size]
  | e :: es => by
    have ih := child_dirs_size excl d es
    cases e with
    | file name =>
      have hcd : child_dirs excl d (.file name :: es) = child_dirs excl d es := by
        simp [child_dirs]
      rw [hcd]
      simp only [entries_size, entry_size]
      omega
    | dir name children =>
      by_cases hx : excl (d ++ [name]) = true
      · have hcd : child_dirs excl d (.dir name children :: es)
            = child_dirs excl d es := by
          simp [child_dirs, hx]
        rw [hcd]
        simp only [entries_size, entry_size]
        omega
      · rw [Bool.not_eq_true] at hx
        have hcd : child_dirs excl d (.dir name children :: es)
            = (d ++ [name], children) :: child_dirs excl d es := by
          simp [child_dirs, hx]
        rw [hcd]
        simp only [List.map_cons, List.sum_cons, List.length_cons,
          entries_size, entry_size]
        omega

theorem queue_size_append (q1 q2 : List (List String × List fs_entry)) :
    queue_size (q1 ++ q2) = queue_size q1 + queue_size q2 := by
  simp [queue_size]
  omega

theorem queue_size_step (excl : List String → Bool) (d : List String)
    (es : List fs_entry) (rest : List (List String × List fs_entry)) :
    queue_size (rest ++ child_dirs excl d es) < queue_size ((d, es) :: rest) := by
  rw [queue_size_append]
  have h := child_dirs_size excl d es
  simp only [queue_size, List.map_cons, List.sum_cons, List.length_cons]
  omega

theorem enumerate_loop_not_under (excl : List String → Bool)
    (out_dir scan_root D : List String) (hD : excl D = true) :
    ∀ (fuel : Nat) (q : List (List String × List fs_entry)),
      (∀ p ∈ q, pathStartsWith D p.1 = false) →
      (∀ dd ∈ (enumerate_loop excl out_dir scan_root fuel q).2,
          pathStartsWith D dd = false)
      ∧ ∀ t ∈ (enumerate_loop excl out_dir scan_root fuel q).1,
          pathStartsWith D t.input = false := by
  intro fuel
  induction fuel with
  | zero =>
    intro q hq
    cases q with
    | nil => simp [enumerate_loop]
    | cons p rest =>
      obtain ⟨d, es⟩ := p
      simp [enumerate_loop]
  | succ n ih =>
    intro q hq
    cases q with
    | nil => simp [enumerate_loop]
    | cons p rest =>
      obtain ⟨d, es⟩ := p
      have hd : pathStartsWith D d = false := hq (d, es) (List.mem_cons_self _ _)
      have hchild : ∀ name, excl (d ++ [name]) = false →
          pathStartsWith D (d ++ [name]) = false := by
        intro name hx
        cases h : pathStartsWith D (d ++ [name]) with
        | false => rfl
        | true =>
          rcases pathStartsWith_snoc D d name h with h1 | h1
          · rw [hd] at h1
            exact absurd h1 (by simp)
          · rw [h1] at hD
            rw [hD] at hx
            exact absurd hx (by simp)
      have hq' : ∀ p ∈ rest ++ child_dirs excl d es, pathStartsWith D p.1 = false := by
        intro p hp
        rcases List.mem_append.mp hp with hp | hp
        · exact hq p (List.mem_cons_of_mem _ hp)
        · obtain ⟨name, children, rfl, hx⟩ := mem_child_dirs excl d es p hp
          exact hchild name hx
      have ihr := ih (rest ++ child_dirs excl d es) hq'
      constructor
      · intro dd hdd
        simp only [enumerate_loop, List.mem_cons] at hdd
        rcases hdd with rfl | hdd
        · exact hd
        · exact ihr.1 dd hdd
      · intro t ht
        simp only [enumerate_loop, List.mem_append] at ht
        rcases ht with ht | ht
        · obtain ⟨name, rfl, hx⟩ := mem_child_tasks excl out_dir scan_root d es t ht
          exact hchild name hx
        · exact ihr.2 t ht

theorem enumerate_loop_mirror (excl : List String → Bool)
    (out_dir scan_root : List String) :
    ∀ (fuel : Nat) (q : List (List String × List fs_entry)),
      (∀ p ∈ q, pathStartsWith scan_root p.1 = true) →
      ∀ t ∈ (enumerate_loop excl out_dir scan_root fuel q).1,
        t.output = out_dir ++ rel_segments scan_root t.input
        ∧ t.input.getLast? = t.output.getLast? := by
  intro fuel
  induction fuel with
  | zero =>
    intro q hq
    cases q with
    | nil => simp [enumerate_loop]
    | cons p rest =>
      obtain ⟨d, es⟩ := p
      simp [enumerate_loop]
  | succ n ih =>
    intro q hq
    cases q with
    | nil => simp [enumerate_loop]
    | cons p rest =>
      obtain ⟨d, es⟩ := p
      have hd : pathStartsWith scan_root d = true := hq (d, es) (List.mem_cons_self _ _)
      have hq' : ∀ p ∈ rest ++ child_dirs excl d es,
          pathStartsWith scan_root p.1 = true := by
        intro p hp
        rcases List.mem_append.mp hp with hp | hp
        · exact hq p (List.mem_cons_of_mem _ hp)
        · obtain ⟨name, children, rfl, _⟩ := mem_child_dirs excl d es p hp
          exact pathStartsWith_extend _ _ _ hd
      intro t ht
      simp only [enumerate_loop, List.mem_append] at ht
      rcases ht with ht | ht
      · obtain ⟨name, rfl, _⟩ := mem_child_tasks excl out_dir scan_root d es t ht
        constructor
        · show out_dir ++ rel_segments scan_root d ++ [name]
            = out_dir ++ rel_segments scan_root (d ++ [name])
          rw [rel_segments_snoc scan_root d name hd, List.append_assoc]
        · show (d ++ [name]).getLast?
            = (out_dir ++ rel_segments scan_root d ++ [name]).getLast?
          rw [List.getLast?_concat, List.getLast?_concat]
      · exact ih (rest ++ child_dirs excl d es) hq' t ht

theorem is_error_eq_true (s : processing_status) :
    is_error s = true ↔ s = .error := by
  cases s <;> simp [is_error]

theorem foldl_and_not {α : Type} (p : α → Bool) :
    ∀ (l : List α) (b : Bool),
      l.foldl (fun acc t => acc && !(p t)) b = (b && !(l.any p))
  | [], b => by simp
  | x :: l, b => by
    rw [List.foldl_cons, foldl_and_not p l (b && !(p x)), List.any_cons]
    cases p x <;> cases b <;> simp

theorem foldl_if_or {α : Type} (p : α → Bool) :
    ∀ (l : List α) (b : Bool),
      l.foldl (fun acc t => if p t then true else acc) b = (b || l.any p)
  | [], b => by simp
  | x :: l, b => by
    rw [List.foldl_cons, foldl_if_or p l _, List.any_cons]
    cases p x <;> cases b <;> simp

theorem foldl_or {α : Type} (p : α → Bool) :
    ∀ (l : List α) (b : Bool),
      l.foldl (fun acc t => p t || acc) b = (b || l.any p)
  | [], b => by simp
  | x :: l, b => by
    rw [List.foldl_cons, foldl_or p l _, List.any_cons]
    cases p x <;> cases b <;> simp

theorem aggregate_verdict_eq (hw : Nat)
    (statusOf : FileTask → processing_status) (tasks : List FileTask) :
    aggregate_verdict hw statusOf tasks =
      if tasks.any (fun t => is_error (statusOf t)) then .error else .success := by
  by_cases h : hw ≤ tasks.length <;>
    simp [aggregate_verdict, h, foldl_and_not, foldl_if_or, foldl_or]

theorem process_file_counter (sv : Services) (g : options) (fst : FileState)
    (input_path output_path : List String) (hdry : g.dry_run = false) :
    (process_file sv g fst input_path output_path).counter_inc =
      if (process_file sv g fst input_path output_path).status = .success
      then 1 else 0 := by
  unfold process_file
  split
  · rfl
  · split
    · rfl
    · rfl
    · split
      · rfl
      · split
        · rfl
        · rw [if_neg (by simp [hdry])]
          simp only []
          split
          · rfl
          · rfl

/-! The claims. -/

/-- C1: the claim says the enumerator emits a FileTask only for files
passing suffix inclusion and that the per-file driver re-checks suffix
inclusion of the task's own input file.  The code does neither: the
enumeration loop never consults should_include_suffix, and the driver
checks `g.input` (the scan root) instead of the task's file
(main.cpp:502).  Evaluated at the spec's Scenario 3 (suffix pattern
matching exactly the extension ".log" — the full-match behavior of
the regex \.log$ on the extensions in play — over a root holding x.log
and x.txt): both files are enumerated, and even the qualifying x.log
task is skipped because the scan root ["r"] has no extension. -/
theorem c1_suffix_check_eval :
    ((enumerate_tasks (fun p => should_exclude literal_full_match none ["r"] p)
        ["o"] ["r"] [.file "x.log", .file "x.txt"]).1.map FileTask.input
      = [["r", "x.log"], ["r", "x.txt"]])
    ∧ (process_file sample_services
        ⟨false, false, true, ["r"], ["o"], some (".log", [".log"]), "UTF-8", none⟩
        text_file_state ["r", "x.log"] ["o", "x.log"]).status = .skip := by
  decide

/-- C2: the aggregate verdict of a run is error iff at least one task's
status is error; it is success iff no task's status is error (so a run
of only skip and success statuses yields success); and one status is
produced per enumerated task (no short-circuit).  Holds for both
coordinator branches (parallel transform_reduce and serial loop). -/
theorem c2_aggregate (hw : Nat) (statusOf : FileTask → processing_status)
    (tasks : List FileTask) :
    (aggregate_verdict hw statusOf tasks = .error ↔ ∃ t ∈ tasks, statusOf t = .error)
    ∧ (aggregate_verdict hw statusOf tasks = .success ↔ ∀ t ∈ tasks, statusOf t ≠ .error)
    ∧ (run_statuses statusOf tasks).length = tasks.length := by
  have key : tasks.any (fun t => is_error (statusOf t)) = true
      ↔ ∃ t ∈ tasks, statusOf t = .error := by
    rw [List.any_eq_true]
    constructor
    · rintro ⟨t, ht, he⟩
      exact ⟨t, ht, (is_error_eq_true _).mp he⟩
    · rintro ⟨t, ht, he⟩
      exact ⟨t, ht, (is_error_eq_true _).mpr he⟩
  simp only [aggregate_verdict_eq]
  by_cases h : tasks.any (fun t => is_error (statusOf t)) = true
  · rw [if_pos h]
    obtain ⟨t, ht, he⟩ := key.mp h
    refine ⟨by simp [key.mp h], ?_, by simp [run_statuses]⟩
    constructor
    · intro habs
      exact absurd habs (by simp)
    · intro hall
      exact absurd he (hall t ht)
  · rw [if_neg h]
    have hne : ¬ ∃ t ∈ tasks, statusOf t = .error := fun hex => h (key.mpr hex)
    refine ⟨?_, ?_, by simp [run_statuses]⟩
    · constructor
      · intro habs
        exact absurd habs (by simp)
      · intro hex
        exact absurd hex hne
    · constructor
      · intro _ t ht he
        exact hne ⟨t, ht, he⟩
      · intro _
        rfl

/-- C2 witness: a concrete two-task run with one error aggregates to
error. -/
theorem c2_aggregate_witness :
    aggregate_verdict 8
      (fun t => if t.input = ["r", "bad"] then .error else .success)
      [⟨["r", "ok"], ["o", "ok"]⟩, ⟨["r", "bad"], ["o", "bad"]⟩] = .error :=
  (c2_aggregate 8
      (fun t => if t.input = ["r", "bad"] then .error else .success)
      [⟨["r", "ok"], ["o", "ok"]⟩, ⟨["r", "bad"], ["o", "bad"]⟩]).1.mpr
    ⟨⟨["r", "bad"], ["o", "bad"]⟩, by decide, by decide⟩

/-- C3 counterexample: the claim's first match target is the path
relative to ScanRoot, but the code passes the full path string.  With
the (metacharacter-free) pattern "sub/secret", scan root /r and path
/r/sub/secret, the claim's reading excludes the path while the code
does not: the pattern full-matches neither "/r/sub/secret" nor the
filename, extension, or any single component. -/
theorem c3_counterexample :
    should_exclude_claim literal_full_match (some ("sub/secret", ["sub/secret"]))
      ["r"] ["r", "sub", "secret"] = true
    ∧ should_exclude literal_full_match (some ("sub/secret", ["sub/secret"]))
      ["r"] ["r", "sub", "secret"] = false := by
  decide

/-- C3 amended: with exclude patterns configured, should_exclude returns
true exactly when some pattern full-matches the FULL path string (as
passed, absolute), or the filename alone, or the extension alone, or
any single path component relative to ScanRoot (so component matching
still never sees ancestor directories of the scan root). -/
theorem c3_amended (rm : String → String → Bool) (raw : String)
    (pats : List String) (scan_root path : List String) :
    should_exclude rm (some (raw, pats)) scan_root path = true ↔
      ∃ pat ∈ pats, rm pat (path_string path) = true
        ∨ rm pat (path_filename path) = true
        ∨ rm pat (path_extension (path_filename path)) = true
        ∨ ∃ part ∈ rel_segments scan_root path, rm pat part = true := by
  simp [should_exclude, List.any_eq_true, or_assoc]

/-- C3 witness: a pattern equal to the extension excludes the path. -/
theorem c3_amended_witness :
    should_exclude literal_full_match (some (".txt", [".txt"]))
      ["r"] ["r", "a.txt"] = true :=
  (c3_amended literal_full_match ".txt" [".txt"] ["r"] ["r", "a.txt"]).mpr
    ⟨".txt", by decide, Or.inr (Or.inr (Or.inl (by decide)))⟩

/-- C4: the claim says an invalid pattern never aborts the scan and
degrades to literal matching.  In the code, parse_regex_pairs reports
the compile failure and options::init then calls std::exit(1)
(main.cpp:270-279), so the program terminates before any scan; the
literal-matching catch branches in should_exclude and
should_include_suffix are unreachable for such a pattern.  Evaluated
at the invalid regular expression "[" (unterminated bracket, rejected
by the std::regex constructor). -/
theorem c4_invalid_pattern_exits :
    options_init (fun pat => !(pat == "[")) false false false ["r"] ["o"]
      none (some "[") "UTF-8" = Except.error 1 := by
  rfl

/-- C5: for every directory matched by an exclude pattern during
enumeration (a strict descendant scan_root ++ ds of the scan root),
that directory never appears among the scanned directories (it is
never enqueued), and no task whose input lies at or under it is ever
emitted — whatever the suffix configuration, which the enumerator
never consults. -/
theorem c5_pruning (rm : String → String → Bool)
    (ex : Option (String × List String)) (out_dir scan_root ds : List String)
    (tree : List fs_entry) (hds : ds ≠ [])
    (hexcl : should_exclude rm ex scan_root (scan_root ++ ds) = true) :
    (∀ d ∈ (enumerate_tasks (fun p => should_exclude rm ex scan_root p)
        out_dir scan_root tree).2,
      pathStartsWith (scan_root ++ ds) d = false)
    ∧ ∀ t ∈ (enumerate_tasks (fun p => should_exclude rm ex scan_root p)
        out_dir scan_root tree).1,
      pathStartsWith (scan_root ++ ds) t.input = false := by
  have hinv : ∀ p ∈ [(scan_root, tree)],
      pathStartsWith (scan_root ++ ds) p.1 = false := by
    intro p hp
    rw [List.mem_singleton] at hp
    rw [hp]
    exact pathStartsWith_extra_false scan_root ds hds
  exact enumerate_loop_not_under (fun p => should_exclude rm ex scan_root p)
    out_dir scan_root (scan_root ++ ds) hexcl _ _ hinv

/-- C5 witness: Scenario 1 shape — excluding "build" under root /r keeps
the a.txt task, whose input is not under /r/build. -/
theorem c5_pruning_witness :
    pathStartsWith (["r"] ++ ["build"]) ["r", "a.txt"] = false :=
  (c5_pruning literal_full_match (some ("build", ["build"])) ["o"] ["r"] ["build"]
      [.dir "build" [.file "c.txt"], .file "a.txt"] (by decide) (by decide)).2
    ⟨["r", "a.txt"], ["o", "a.txt"]⟩ (by decide)

/-- C6: every task emitted by the enumerator has
output = output_root ++ relative(input, scan_root) with the filename
(last path component) unchanged: the two-step composition
output_dir / rel_dir / relative_path used at main.cpp:570 equals the
one-step mirror. -/
theorem c6_mirroring (excl : List String → Bool) (out_dir scan_root : List String)
    (tree : List fs_entry) :
    ∀ t ∈ (enumerate_tasks excl out_dir scan_root tree).1,
      t.output = out_dir ++ rel_segments scan_root t.input
      ∧ t.input.getLast? = t.output.getLast? := by
  have hinv : ∀ p ∈ [(scan_root, tree)], pathStartsWith scan_root p.1 = true := by
    intro p hp
    rw [List.mem_singleton] at hp
    rw [hp]
    exact pathStartsWith_refl scan_root
  exact enumerate_loop_mirror excl out_dir scan_root _ _ hinv

/-- C6 witness: the task for /r/d/a.txt mirrors to /o/d/a.txt. -/
theorem c6_mirroring_witness :
    (["o", "d", "a.txt"] : List String) = ["o"] ++ rel_segments ["r"] ["r", "d", "a.txt"]
    ∧ (["r", "d", "a.txt"] : List String).getLast?
        = (["o", "d", "a.txt"] : List String).getLast? :=
  c6_mirroring (fun _ => false) ["o"] ["r"] [.dir "d" [.file "a.txt"]]
    ⟨["r", "d", "a.txt"], ["o", "d", "a.txt"]⟩ (by decide)

/-- C7: when the detected source charset equals the target charset,
convert_encoding takes the copy fast path: the bytes at the output are
exactly the input bytes and the iconv transcoding primitive runs zero
times (assuming the byte-for-byte copy itself succeeds). -/
theorem c7_fast_path (sv : Services) (fst : FileState)
    (input_filename output_filename : List String) (charset : String)
    (hcopy : fst.copy_ok = true) :
    convert_encoding sv fst input_filename charset output_filename charset
      = ⟨true, some fst.content, 0⟩ := by
  simp [convert_encoding, hcopy]

/-- C7 witness: copying a one-byte UTF-8 file to UTF-8. -/
theorem c7_fast_path_witness :
    convert_encoding sample_services text_file_state ["r", "a.txt"] "UTF-8"
      ["o", "a.txt"] "UTF-8" = ⟨true, some [65], 0⟩ :=
  c7_fast_path sample_services text_file_state ["r", "a.txt"] ["o", "a.txt"]
    "UTF-8" rfl

/-- C8 counterexample: the claim says the counter equals the number of
success statuses in every run, but the dry-run success path
(main.cpp:518-521) returns success without incrementing: a one-task
dry run produces one success status and a counter of zero. -/
theorem c8_counterexample :
    total_processed (run_outcomes sample_services
        ⟨false, true, false, ["r"], ["o"], none, "UTF-8", none⟩
        (fun _ => text_file_state) [⟨["r", "a.txt"], ["o", "a.txt"]⟩]) = 0
    ∧ count_success ((run_outcomes sample_services
        ⟨false, true, false, ["r"], ["o"], none, "UTF-8", none⟩
        (fun _ => text_file_state) [⟨["r", "a.txt"], ["o", "a.txt"]⟩]).map
          fun o => o.status) = 1 := by
  decide

/-- C8 amended: in every non-dry-run run, the final value of the
g_processed_files counter equals the number of tasks whose status is
success (one increment per success, none on skip or error); in
dry-run mode successes are reported without incrementing. -/
theorem c8_amended (sv : Services) (g : options) (w : List String → FileState)
    (tasks : List FileTask) (hdry : g.dry_run = false) :
    total_processed (run_outcomes sv g w tasks)
      = count_success ((run_outcomes sv g w tasks).map fun o => o.status) := by
  induction tasks with
  | nil => rfl
  | cons t ts ih =>
    have hc := process_file_counter sv g (w t.input) t.input t.output hdry
    simp only [run_outcomes, List.map_cons, total_processed, List.sum_cons,
      count_success, List.filter_cons] at ih ⊢
    rw [hc]
    by_cases hs : (process_file sv g (w t.input) t.input t.output).status = .success
    · rw [if_pos hs, if_pos (decide_eq_true hs)]
      simp only [List.length_cons]
      omega
    · rw [if_neg hs, if_neg (fun h => hs (of_decide_eq_true h))]
      omega

/-- C8 amended witness: a concrete non-dry-run one-task run. -/
theorem c8_amended_witness :
    total_processed (run_outcomes sample_services
        ⟨false, false, false, ["r"], ["o"], none, "UTF-8", none⟩
        (fun _ => text_file_state) [⟨["r", "a.txt"], ["o", "a.txt"]⟩])
      = count_success ((run_outcomes sample_services
        ⟨false, false, false, ["r"], ["o"], none, "UTF-8", none⟩
        (fun _ => text_file_state) [⟨["r", "a.txt"], ["o", "a.txt"]⟩]).map
          fun o => o.status) :=
  c8_amended sample_services ⟨false, false, false, ["r"], ["o"], none, "UTF-8", none⟩
    (fun _ => text_file_state) [⟨["r", "a.txt"], ["o", "a.txt"]⟩] rfl

/-- C9: for a readable zero-length file (whose MIME probe runs),
detect_encoding reports the "empty file" sentinel without invoking the
detector, the sentinel is not an error (the per-file status is skip,
whatever the options), nothing is written to the output path, and the
run's verdict for that file is success (exit code 0). -/
theorem c9_empty_file (sv : Services) (g : options) (fst : FileState)
    (input_path output_path : List String)
    (hread : fst.readable = true) (hempty : fst.content = [])
    (m : String) (hmime : fst.mime = some m) :
    detect_encoding sv.detect fst = (some "empty file", 0)
    ∧ (process_file sv g fst input_path output_path).status = .skip
    ∧ (process_file sv g fst input_path output_path).written = none
    ∧ (process_file sv g fst input_path output_path).detector_calls = 0
    ∧ main_verdict (process_file sv g fst input_path output_path).status = 0 := by
  have hdet : detect_encoding sv.detect fst = (some "empty file", 0) := by
    rw [detect_encoding, hread, hempty]
    simp
  have houtcome : (process_file sv g fst input_path output_path).status = .skip
      ∧ (process_file sv g fst input_path output_path).written = none
      ∧ (process_file sv g fst input_path output_path).detector_calls = 0 := by
    unfold process_file
    split
    · exact ⟨rfl, rfl, rfl⟩
    · rw [hmime]
      simp only [is_text_file]
      cases hct : contains_chars "text".toList m.toList
      · exact ⟨rfl, rfl, rfl⟩
      · rw [hdet]
        exact ⟨rfl, rfl, rfl⟩
  refine ⟨hdet, houtcome.1, houtcome.2.1, houtcome.2.2, ?_⟩
  simp [main_verdict, houtcome.1]

/-- C9 witness: a concrete empty text file is skipped with exit code 0. -/
theorem c9_empty_file_witness :
    detect_encoding sample_services.detect empty_file_state = (some "empty file", 0)
    ∧ (process_file sample_services
        ⟨false, false, false, ["r", "e.txt"], ["o", "e.txt"], none, "UTF-8", none⟩
        empty_file_state ["r", "e.txt"] ["o", "e.txt"]).status = .skip
    ∧ (process_file sample_services
        ⟨false, false, false, ["r", "e.txt"], ["o", "e.txt"], none, "UTF-8", none⟩
        empty_file_state ["r", "e.txt"] ["o", "e.txt"]).written = none
    ∧ (process_file sample_services
        ⟨false, false, false, ["r", "e.txt"], ["o", "e.txt"], none, "UTF-8", none⟩
        empty_file_state ["r", "e.txt"] ["o", "e.txt"]).detector_calls = 0
    ∧ main_verdict (process_file sample_services
        ⟨false, false, false, ["r", "e.txt"], ["o", "e.txt"], none, "UTF-8", none⟩
        empty_file_state ["r", "e.txt"] ["o", "e.txt"]).status = 0 :=
  c9_empty_file sample_services
    ⟨false, false, false, ["r", "e.txt"], ["o", "e.txt"], none, "UTF-8", none⟩
    empty_file_state ["r", "e.txt"] ["o", "e.txt"] rfl rfl "text/plain" rfl

/-- C10: on a single-file invocation (input not a directory) main
invokes the per-file driver directly and should_exclude is never
consulted, so the exclude patterns have no effect: both the driver's
outcome and the program's exit code are identical for any two exclude
configurations. -/
theorem c10_single_file (sv : Services) (g : options)
    (w : List String → FileState) (tree : List fs_entry) (hw : Nat)
    (fst : FileState) (input_path output_path : List String)
    (e1 e2 : Option (String × List String)) :
    process_file sv { g with exclude := e1 } fst input_path output_path
      = process_file sv { g with exclude := e2 } fst input_path output_path
    ∧ chconv_main sv { g with exclude := e1 } false w tree hw
      = chconv_main sv { g with exclude := e2 } false w tree hw :=
  ⟨rfl, rfl⟩

/-- C10 witness: a concrete single-file run with and without an exclude
pattern that matches the input. -/
theorem c10_single_file_witness :
    process_file sample_services
      ⟨false, false, false, ["r"], ["o"], none, "UTF-8", some ("r", ["r"])⟩
      text_file_state ["r"] ["o"]
      = process_file sample_services
        ⟨false, false, false, ["r"], ["o"], none, "UTF-8", none⟩
        text_file_state ["r"] ["o"]
    ∧ chconv_main sample_services
        ⟨false, false, false, ["r"], ["o"], none, "UTF-8", some ("r", ["r"])⟩
        false (fun _ => text_file_state) [] 0
      = chconv_main sample_services
        ⟨false, false, false, ["r"], ["o"], none, "UTF-8", none⟩
        false (fun _ => text_file_state) [] 0 :=
  c10_single_file sample_services
    ⟨false, false, false, ["r"], ["o"], none, "UTF-8", none⟩
    (fun _ => text_file_state) [] 0 text_file_state ["r"] ["o"]
    (some ("r", ["r"])) none
